import Mathlib

/-!
Verification of the per-variant struct descriptor engine of `nsmbpy`.

The repository contains two parallel implementations of the engine:

* `nsmbpy2/base_struct.py` — the newer one ("`BaseStruct` engine"): a struct
  instance wraps a fixed-length byte buffer; field reads and writes go through
  wrapper chains (`NumericField` / `NumericFieldMask` / `NumericFieldLshift` /
  `NumericFieldRshift` / `NumericFieldBool` / `NumericFieldEnum` /
  `BytestringField` / `StringField`) that unpack and re-pack bytes in place.

* `nsmbpy/perGameStructs.py` — the older one ("`PerGameStruct` engine"):
  loading decodes every field into attributes and saving re-packs them into a
  fresh zero-filled buffer; the value transformations live in a list of
  `Transformation` objects on each `ConcreteNumericField`.

Byte buffers are modelled as `List Nat` (one entry per byte, `< 256` for
well-formed buffers).  Python's unbounded integers are modelled as `Nat` for
raw values (all raw values handled by the engine are non-negative: they come
from unsigned `struct` formats, user-supplied field values are non-negative
in every descriptor, and masks in descriptors are non-negative), and the
bitmask accumulator — which in Python starts from the sentinel `-1` and is
combined with `&`, `<<` and `>>` — is modelled by `PyMask` below, which
represents exactly the integers reachable by those operations: non-negative
masks and the negative numbers `-(2 ^ k)` (the sentinel `-1` is `-(2 ^ 0)`).
-/

/-- Python's `v & ~m` for non-negative `v`, `m`: clear the bits of `m` in `v`.
(`v ^^^ (v &&& m)` removes from `v` exactly the bits it shares with `m`.) -/
def andNot (v m : Nat) : Nat := v ^^^ (v &&& m)

/-- Little-endian interpretation of a byte list. -/
def bytesToNatLE : List Nat → Nat
  | [] => 0
  | b :: rest => b + 256 * bytesToNatLE rest

/-- Split a value into `w` little-endian bytes (the value must be `< 2^(8*w)`
for this to be exact, which `pack_into` checks). -/
def natToBytesLE : Nat → Nat → List Nat
  | 0, _ => []
  | w + 1, v => v % 256 :: natToBytesLE w (v / 256)

/-- `struct.unpack_from(fmt, data, offset)[0]` for an unsigned format of byte
width `w` and endianness `big`; `none` models `struct.error` (buffer too
short). -/
def unpack_from (big : Bool) (w offset : Nat) (data : List Nat) : Option Nat :=
  if offset + w ≤ data.length then
    let chunk := (data.drop offset).take w
    some (bytesToNatLE (if big then chunk.reverse else chunk))
  else none

/-- `struct.pack_into(fmt, data, offset, v)` for an unsigned format of byte
width `w` and endianness `big`; `none` models `struct.error` (buffer too short
or value out of range).  CPython validates the value range before writing, so
a failed pack leaves the buffer untouched. -/
def pack_into (big : Bool) (w offset : Nat) (data : List Nat) (v : Nat) :
    Option (List Nat) :=
  if offset + w ≤ data.length ∧ v < 2 ^ (8 * w) then
    let bs := natToBytesLE w v
    some (data.take offset ++ (if big then bs.reverse else bs) ++ data.drop (offset + w))
  else none

/-- The Python integers reachable by the engines' bitmask accumulators.
`pos m` is the non-negative integer `m`; `neg k` is the integer `-(2 ^ k)`.
The accumulator starts from `-1 = neg 0`, the "no restriction" sentinel. -/
inductive PyMask where
  | pos (m : Nat)
  | neg (k : Nat)
deriving DecidableEq

namespace PyMask

/-- `bitmask & m` for a non-negative `m` (Python `&`).
`-(2^k) & m` clears the low `k` bits of `m`. -/
def land : PyMask → Nat → PyMask
  | pos b, m => pos (b &&& m)
  | neg k, m => pos ((m >>> k) <<< k)

/-- `bitmask << n` (Python `<<`).  `-(2^k) << n = -(2^(k+n))`. -/
def shiftl : PyMask → Nat → PyMask
  | pos b, n => pos (b <<< n)
  | neg k, n => neg (k + n)

/-- `bitmask >> n` (Python `>>`, arithmetic).  `-(2^k) >> n = -(2^(k-n))`
(which is `-1` once `n ≥ k`). -/
def shiftr : PyMask → Nat → PyMask
  | pos b, n => pos (b >>> n)
  | neg k, n => neg (k - n)

/-- The `bitmask == -1` test used by both engines. -/
def isMinusOne : PyMask → Bool
  | neg 0 => true
  | _ => false

/-- `v & bitmask` for a non-negative value `v`. -/
def maskVal : PyMask → Nat → Nat
  | pos m, v => v &&& m
  | neg k, v => (v >>> k) <<< k

/-- `v & ~bitmask` for a non-negative value `v`.  `~(-(2^k)) = 2^k - 1`, so
the `neg k` case keeps exactly the low `k` bits. -/
def maskValCompl : PyMask → Nat → Nat
  | pos m, v => andNot v m
  | neg k, v => v % 2 ^ k

end PyMask

/-! ## The `nsmbpy2/base_struct.py` engine -/

namespace nsmbpy2

/-- The integral-numeric field-wrapper hierarchy of `base_struct.py`:
`base` is a `NumericField` subclass such as `LE_U8`/`BE_U16` (unsigned
formats; `w` bytes, endianness `big`) and the other constructors are the
fluent wrappers `NumericFieldMask` / `NumericFieldLshift` /
`NumericFieldRshift`. -/
inductive NumericField where
  | base (big : Bool) (w : Nat) (offset : Nat)
  | mask (parent : NumericField) (bitmask : Nat)
  | lshift (parent : NumericField) (amount : Nat)
  | rshift (parent : NumericField) (amount : Nat)
deriving DecidableEq

/-- The `get(data)` methods of the numeric wrapper classes. -/
def NumericField.get : NumericField → List Nat → Option Nat
  | .base big w offset, data => unpack_from big w offset data
  | .mask parent bitmask, data => (parent.get data).map (· &&& bitmask)
  | .lshift parent amount, data => (parent.get data).map (· <<< amount)
  | .rshift parent amount, data => (parent.get data).map (· >>> amount)

/-- The `set(data, value, bitmask=...)` methods of the numeric wrapper
classes.  `NumericField.set` (the base class) combines as
`(value & bitmask) | (orig_value & ~bitmask)` when the bitmask is not the
`-1` sentinel; each wrapper forwards an adjusted value and bitmask to its
parent. -/
def NumericField.set : NumericField → List Nat → Nat → PyMask → Option (List Nat)
  | .base big w offset, data, value, bitmask =>
    if bitmask.isMinusOne then
      pack_into big w offset data value
    else
      match unpack_from big w offset data with
      | none => none
      | some orig_value =>
        pack_into big w offset data ((bitmask.maskVal value) ||| (bitmask.maskValCompl orig_value))
  | .mask parent m, data, value, bitmask => parent.set data (value &&& m) (bitmask.land m)
  | .lshift parent amount, data, value, bitmask => parent.set data (value >>> amount) (bitmask.shiftr amount)
  | .rshift parent amount, data, value, bitmask => parent.set data (value <<< amount) (bitmask.shiftl amount)

/-- `NumericFieldBool.get`: `bool(parent.get(data))`. -/
def NumericFieldBool.get (parent : NumericField) (data : List Nat) : Option Bool :=
  (parent.get data).map (fun v => v != 0)

/-- `NumericFieldBool.set`: forwards `1 if value else 0` to the parent, with
the incoming `bitmask` passed through unchanged. -/
def NumericFieldBool.set (parent : NumericField) (data : List Nat) (value : Bool)
    (bitmask : PyMask) : Option (List Nat) :=
  parent.set data (if value then 1 else 0) bitmask

/-- Result of `NumericFieldEnum.get`: either a member of the `IntEnum`
(identified by its integral value) or the raw unmatched integer. -/
inductive EnumResult where
  | member (v : Nat)
  | raw (v : Nat)
deriving DecidableEq

/-- `NumericFieldEnum.get`: `try: return self.enum_type(value) except
ValueError: return value`.  The `IntEnum` is modelled by the list of its
member values. -/
def NumericFieldEnum.get (parent : NumericField) (members : List Nat)
    (data : List Nat) : Option EnumResult :=
  (parent.get data).map (fun v => if v ∈ members then EnumResult.member v else EnumResult.raw v)

end nsmbpy2

namespace nsmbpy2

/-- `NumericFieldEnum.set`: an `int` (or `IntEnum` member, which is an `int`)
is forwarded to the parent with the bitmask unchanged. -/
def NumericFieldEnum.set (parent : NumericField) (data : List Nat) (value : Nat)
    (bitmask : PyMask) : Option (List Nat) :=
  parent.set data value bitmask

/-- A field of a `BaseStruct` subclass: one of the concrete `StructField`
kinds of `base_struct.py`.  `string offset length` is a `StringField`
wrapping a `BytestringField(offset, length)`. -/
inductive Field where
  | numeric (chain : NumericField)
  | boolean (chain : NumericField)
  | enum (chain : NumericField) (members : List Nat)
  | bytestring (offset : Nat) (length : Nat)
  | string (offset : Nat) (length : Nat)
deriving DecidableEq

/-- A Python value passed to `BaseStruct.set`.  `str` values are modelled by
their encoded byte sequence (without the terminating null byte that
`StringField.set` appends). -/
inductive Value where
  | int (n : Nat)
  | bool (b : Bool)
  | enumMember (n : Nat)
  | bytes (bs : List Nat)
  | str (encoded : List Nat)
deriving DecidableEq

/-- Whether a `Value` is usable where `struct.pack_into` needs an integer
(Python `bool` and `IntEnum` members are `int`s), and the integer it packs
as. -/
def Value.toPackable : Value → Option Nat
  | .int n => some n
  | .bool b => some (if b then 1 else 0)
  | .enumMember n => some n
  | .bytes _ => none
  | .str _ => none

/-- Python truthiness of a `Value` (`1 if value else 0`). -/
def Value.truthy : Value → Bool
  | .int n => n != 0
  | .bool b => b
  | .enumMember n => n != 0
  | .bytes bs => !bs.isEmpty
  | .str encoded => !encoded.isEmpty

/-- `BytestringField.set`: `data[offset : offset+length] = value`.  Used here
only through `StringField.set`, which guarantees `value` has exactly the
field's length. -/
def BytestringField.set (offset length : Nat) (data : List Nat) (value : List Nat) :
    List Nat :=
  data.take offset ++ value ++ data.drop (offset + length)

/-- `BytestringField.get`: `bytes(data[offset : offset+length])`. -/
def BytestringField.get (offset length : Nat) (data : List Nat) : List Nat :=
  (data.drop offset).take length

/-- One `set` step of a field, made mutation-explicit: the result is the
buffer after the call together with the error, if any, that the call raised.
Every error path of the source raises before any byte of the buffer is
written (`StringField.set` builds and validates `value_bytes` before calling
its parent; `struct.pack_into` validates before writing), so each error
branch carries the unchanged incoming buffer. -/
def Field.set (f : Field) (data : List Nat) (value : Value) :
    List Nat × Option String :=
  match f with
  | .numeric chain =>
    match value.toPackable with
    | none => (data, some "struct.error raised for a non-int value")
    | some n =>
      match chain.set data n (PyMask.neg 0) with
      | none => (data, some "ValueError from failed struct.pack_into")
      | some data' => (data', none)
  | .boolean chain =>
    match NumericFieldBool.set chain data value.truthy (PyMask.neg 0) with
    | none => (data, some "ValueError from failed struct.pack_into")
    | some data' => (data', none)
  | .enum chain _ =>
    match value with
    | .bytes _ => (data, some "AttributeError: no attribute value")
    | .str _ => (data, some "AttributeError: no attribute value")
    | v =>
      match v.toPackable with
      | none => (data, some "unreachable")
      | some n =>
        match NumericFieldEnum.set chain data n (PyMask.neg 0) with
        | none => (data, some "ValueError from failed struct.pack_into")
        | some data' => (data', none)
  | .bytestring offset length =>
    match value with
    | .bytes bs => (BytestringField.set offset length data bs, none)
    | _ => (data, some "TypeError from bytearray slice assignment")
  | .string offset length =>
    match value with
    | .str encoded =>
      -- value_bytes = (value + chr(0)).encode(self.encoding)
      let value_bytes := encoded ++ [0]
      -- if len(value_bytes) < self.parent.length: ljust with null bytes
      let value_bytes :=
        if value_bytes.length < length then
          value_bytes ++ List.replicate (length - value_bytes.length) 0
        else value_bytes
      if value_bytes.length > length then
        (data, some "ValueError: encoded form cannot fit")
      else
        (BytestringField.set offset length data value_bytes, none)
    | .bytes _ =>
      -- source bug: for a bytes argument, `value_bytes` is referenced
      -- before assignment, so the call always raises before writing
      (data, some "UnboundLocalError: value_bytes")
    | _ => (data, some "TypeError: argument of type int is not iterable")

/-- A `BaseStruct` instance: the field table of its class together with the
wrapped fixed-length buffer.  (`raw_data_length` of the class is
`raw_data.length`; the constructor enforces the match.) -/
structure BaseStruct where
  fields : List (String × Field)
  raw_data : List Nat
deriving DecidableEq

/-- A `BaseStruct` subclass, as produced by `create_basestruct_subclass`:
a `raw_data_length` and a field table. -/
structure StructType where
  raw_data_length : Nat
  fields : List (String × Field)
deriving DecidableEq

/-- `BaseStruct.__init__(data)` (no keyword arguments): copies `data` into an
owned buffer via the `raw_data` branch of `__setattr__`, which raises
`ValueError` unless `len(data) == raw_data_length`. -/
def StructType.init (st : StructType) (data : List Nat) : Option BaseStruct :=
  if data.length = st.raw_data_length then
    some { fields := st.fields, raw_data := data }
  else none

/-- `BaseStruct.__bytes__`: a copy of the current buffer. -/
def BaseStruct.toBytes (s : BaseStruct) : List Nat := s.raw_data

/-- `BaseStruct.set(key, value)`: raises `ValueError` when `key` is not a
field name, otherwise dispatches to the field's `set`.  Mutation-explicit,
like `Field.set`. -/
def BaseStruct.set (s : BaseStruct) (key : String) (value : Value) :
    List Nat × Option String :=
  match s.fields.lookup key with
  | none => (s.raw_data, some "ValueError: not a field")
  | some f => f.set s.raw_data value

/-- `BaseStruct.__eq__`: `self.raw_data == other` — by Python's binary
dispatch this compares byte content whenever `other` is a `bytes`,
`bytearray`, or another `BaseStruct` (whose reflected `__eq__` again
compares its own `raw_data`).  The class and field table of either side
play no part. -/
def BaseStruct.eq (s other : BaseStruct) : Bool :=
  s.raw_data == other.raw_data

/-- `BaseStruct.__eq__` against a plain `bytes`/`bytearray` object. -/
def BaseStruct.eqBytes (s : BaseStruct) (other : List Nat) : Bool :=
  s.raw_data == other

/-- The loop body of `load_struct_array`, iterating
`item_offset in range(0, len(data) - len(terminator), raw_data_length)`.
The fuel argument only bounds the number of iterations (the source loop
always terminates when `raw_data_length > 0`; with `raw_data_length == 0`
Python's `range` raises, which is modelled by running out of fuel). -/
def load_struct_array_go (st : StructType) (data terminator : List Nat) :
    Nat → Nat → Option (List BaseStruct)
  | 0, _ => none
  | fuel + 1, item_offset =>
    if item_offset < data.length - terminator.length then
      let item_data := (data.drop item_offset).take st.raw_data_length
      if terminator ≠ [] ∧ terminator.isPrefixOf item_data then
        some []
      else
        match st.init item_data with
        | none => none
        | some inst =>
          (load_struct_array_go st data terminator fuel
            (item_offset + st.raw_data_length)).map (inst :: ·)
    else
      some []

/-- `load_struct_array(data, struct_type, terminator=...)`. -/
def load_struct_array (st : StructType) (data terminator : List Nat) :
    Option (List BaseStruct) :=
  load_struct_array_go st data terminator (data.length + 1) 0

/-- `save_struct_array(elements, terminator=...)`:
`b''.join([bytes(e) for e in elements] + [terminator])`. -/
def save_struct_array (elements : List BaseStruct) (terminator : List Nat) :
    List Nat :=
  (elements.map BaseStruct.toBytes).flatten ++ terminator

end nsmbpy2

/-! ## The `nsmbpy` package: `__init__.py` and `perGameStructs.py` -/

namespace nsmbpy

/-- `nsmbpy.Game`: the variant selector. -/
inductive Game where
  | NEW_SUPER_MARIO_BROS
  | NEW_SUPER_MARIO_BROS_WII
  | NEW_SUPER_MARIO_BROS_2
  | NEW_SUPER_MARIO_BROS_U
  | NEW_SUPER_LUIGI_U
  | NEW_SUPER_MARIO_BROS_U_DELUXE
deriving DecidableEq

/-- `Game.endianness()`: `true` models `'>'` (big-endian). -/
def Game.endianness : Game → Bool
  | .NEW_SUPER_MARIO_BROS => false
  | .NEW_SUPER_MARIO_BROS_WII => true
  | .NEW_SUPER_MARIO_BROS_2 => false
  | .NEW_SUPER_MARIO_BROS_U => true
  | .NEW_SUPER_LUIGI_U => true
  | .NEW_SUPER_MARIO_BROS_U_DELUXE => false

/-- `Game.is_wii_u()`: true for NSMBU and NSLU. -/
def Game.is_wii_u : Game → Bool
  | .NEW_SUPER_MARIO_BROS_U => true
  | .NEW_SUPER_LUIGI_U => true
  | _ => false

/-- `Game.is_like_nsmbu()`: true for NSMBU, NSLU, and NSMBUDX. -/
def Game.is_like_nsmbu : Game → Bool
  | .NEW_SUPER_MARIO_BROS_U => true
  | .NEW_SUPER_LUIGI_U => true
  | .NEW_SUPER_MARIO_BROS_U_DELUXE => true
  | _ => false

/-- `nsmbpy.VariesPerGame`: an optional default plus the `per_game` dict,
modelled as a function returning `none` for absent keys. -/
structure VariesPerGame (α : Type) where
  default : Option α
  per_game : Game → Option α

/-- A single conditional dict assignment `if v is not None:
self.per_game[game] = v`. -/
def dictSet {α : Type} (f : Game → Option α) (g : Game) (v : Option α) :
    Game → Option α :=
  match v with
  | none => f
  | some x => fun g' => if g' = g then some x else f g'

/-- `VariesPerGame.__init__(default, *, nsmb=..., nsmbw=..., nsmb2=...,
nsmbu=..., nslu=..., nsmbudx=..., wiiu=..., like_nsmbu=...)`, with the
assignments in source order: the six individual per-game assignments first,
then the `wiiu` group (`Game.all_wii_u`), then the `like_nsmbu` group
(`Game.all_like_nsmbu`). -/
def VariesPerGame.make {α : Type} (default nsmb nsmbw nsmb2 nsmbu nslu nsmbudx
    wiiu like_nsmbu : Option α) : VariesPerGame α :=
  let f : Game → Option α := fun _ => none
  let f := dictSet f .NEW_SUPER_MARIO_BROS nsmb
  let f := dictSet f .NEW_SUPER_MARIO_BROS_WII nsmbw
  let f := dictSet f .NEW_SUPER_MARIO_BROS_2 nsmb2
  let f := dictSet f .NEW_SUPER_MARIO_BROS_U nsmbu
  let f := dictSet f .NEW_SUPER_LUIGI_U nslu
  let f := dictSet f .NEW_SUPER_MARIO_BROS_U_DELUXE nsmbudx
  let f :=
    match wiiu with
    | none => f
    | some x => fun g' => if g'.is_wii_u then some x else f g'
  let f :=
    match like_nsmbu with
    | none => f
    | some x => fun g' => if g'.is_like_nsmbu then some x else f g'
  { default := default, per_game := f }

/-- `VariesPerGame.get(game)`: `self.per_game.get(game, self.default)`. -/
def VariesPerGame.get {α : Type} (v : VariesPerGame α) (game : Game) : Option α :=
  match v.per_game game with
  | some x => some x
  | none => v.default

/-- The `ConcreteNumericField.Transformation` kinds of `perGameStructs.py`
(the enum transformation is exercised separately through
`StructFieldEnum.load`/`save`; no claim needs it inside a chain). -/
inductive Transformation where
  | bitmask (m : Nat)
  | leftShift (amount : Nat)
  | rightShift (amount : Nat)
  | boolCast
deriving DecidableEq

/-- `Transformation.transform(game, value)` — the load direction.  Python's
`bool(value)` is modelled by its integer value `0`/`1` (a Python `bool` is
an `int`). -/
def Transformation.transform : Transformation → Nat → Nat
  | .bitmask m, v => v &&& m
  | .leftShift amount, v => v <<< amount
  | .rightShift amount, v => v >>> amount
  | .boolCast, v => if v != 0 then 1 else 0

/-- `Transformation.untransform(game, value)` — the save direction
(`1 if value else 0` for the bool cast). -/
def Transformation.untransform : Transformation → Nat → Nat
  | .bitmask m, v => v &&& m
  | .leftShift amount, v => v >>> amount
  | .rightShift amount, v => v <<< amount
  | .boolCast, v => if v != 0 then 1 else 0

/-- `Transformation.unbitmask(game, value)` — the bitmask fold direction. -/
def Transformation.unbitmask : Transformation → PyMask → PyMask
  | .bitmask m, bm => bm.land m
  | .leftShift amount, bm => bm.shiftr amount
  | .rightShift amount, bm => bm.shiftl amount
  | .boolCast, bm => bm.land 1

/-- A `ConcreteNumericField` (one of the `U8`/`U16`/... subclasses): byte
width from the format character, offset, optional pinned endianness, and the
fluent list of transformations in application (load) order. -/
structure ConcreteNumericField where
  w : Nat
  offset : Nat
  endianness : Option Bool
  transformations : List Transformation
deriving DecidableEq

/-- `cls.overall_bitmask`: `(1 << numBits) - 1` for the field's width. -/
def ConcreteNumericField.overall_bitmask (f : ConcreteNumericField) : Nat :=
  2 ^ (8 * f.w) - 1

/-- `format_string(game)`: the game's endianness unless pinned. -/
def ConcreteNumericField.big (f : ConcreteNumericField) (game : Game) : Bool :=
  match f.endianness with
  | none => game.endianness
  | some e => e

/-- `ConcreteNumericField.get_bitmask(game)`: fold `unbitmask` over the
reversed transformation list starting from `-1`; return `-1` unchanged,
otherwise `bitmask & overall_bitmask`. -/
def ConcreteNumericField.get_bitmask (f : ConcreteNumericField) : PyMask :=
  let bm := f.transformations.reverse.foldl
    (fun bm t => t.unbitmask bm) (PyMask.neg 0)
  if bm.isMinusOne then bm else bm.land f.overall_bitmask

/-- `ConcreteNumericField.load(game, data)`: unpack, then apply the
transformations in order. -/
def ConcreteNumericField.load (f : ConcreteNumericField) (game : Game)
    (data : List Nat) : Option Nat :=
  match unpack_from (f.big game) f.w f.offset data with
  | none => none
  | some v => some (f.transformations.foldl (fun v t => t.transform v) v)

/-- `ConcreteNumericField.save(game, data, value)`: undo the transformations
in reverse order, then, unless the effective bitmask is `-1`, read the
current raw value and combine as `(origValue & ~bitmask) | value` before
packing.  (Unlike the `nsmbpy2` engine, the untransformed value itself is
not masked here.) -/
def ConcreteNumericField.save (f : ConcreteNumericField) (game : Game)
    (data : List Nat) (value : Nat) : Option (List Nat) :=
  let value := f.transformations.reverse.foldl (fun v t => t.untransform v) value
  let bitmask := f.get_bitmask
  if bitmask.isMinusOne then
    pack_into (f.big game) f.w f.offset data value
  else
    match unpack_from (f.big game) f.w f.offset data with
    | none => none
    | some origValue =>
      pack_into (f.big game) f.w f.offset data
        ((bitmask.maskValCompl origValue) ||| value)

end nsmbpy

namespace nsmbpy

/-- `StructFieldEnum.load(game, value)`: linear scan over the members (each a
`VariesPerGame` of raw representations) for the first whose representation in
`game` is present and equals `value`; `none` models the `ValueError` raised
when no member matches.  The matched member is returned as its index. -/
def StructFieldEnum.load (members : List (VariesPerGame Nat)) (game : Game)
    (value : Nat) : Option Nat :=
  match members with
  | [] => none
  | m :: rest =>
    if m.get game = some value then some 0
    else (StructFieldEnum.load rest game value).map (· + 1)

/-- `StructFieldEnum.save(game)` for the member at the given index: its raw
representation in `game`; `none` models the `ValueError` raised when the
member has no value there. -/
def StructFieldEnum.save (members : List (VariesPerGame Nat)) (game : Game)
    (member : Nat) : Option Nat :=
  match members.get? member with
  | none => none
  | some m => m.get game

/-- `_common.divide_block(data, item_size)`: split into chunks of
`item_size`, the final chunk possibly shorter (ceil division).  The fuel is
`data.length`, enough for every positive `item_size`; `item_size == 0`
raises `ZeroDivisionError` in the source and is never used. -/
def divide_block_go (item_size : Nat) : Nat → List Nat → List (List Nat)
  | _, [] => []
  | 0, _ => []
  | fuel + 1, data => data.take item_size :: divide_block_go item_size fuel (data.drop item_size)

/-- `_common.divide_block(data, item_size)`. -/
def divide_block (data : List Nat) (item_size : Nat) : List (List Nat) :=
  if item_size = 0 then [] else divide_block_go item_size data.length data

/-- A `PerGameStruct` subclass: per-variant length and block terminator are
modelled at their resolved values (the claims under verification exercise a
single variant at a time), plus the resolved concrete fields in declaration
order. -/
structure PerGameStruct where
  length : Nat
  block_terminator : List Nat
  fields : List ConcreteNumericField
deriving DecidableEq

/-- `PerGameStruct.load(game, data)`: decode every field of the variant into
attribute values, in declaration order.  There is no length validation: the
call succeeds whenever every field's bytes lie inside `data`. -/
def PerGameStruct.load (s : PerGameStruct) (game : Game) (data : List Nat) :
    Option (List Nat) :=
  s.fields.mapM (fun f => f.load game data)

/-- `PerGameStruct.save(game)`: re-pack the attribute values into a fresh
zero-filled buffer of the variant's length, field by field. -/
def PerGameStruct.save (s : PerGameStruct) (game : Game) (values : List Nat) :
    Option (List Nat) :=
  (s.fields.zip values).foldlM
    (fun data fv => fv.1.save game data fv.2)
    (List.replicate s.length 0)

/-- `PerGameStruct.load_block(game, data)`: require and strip the terminator
when one is configured, then `divide_block` and load every chunk — including
a final partial chunk, which `divide_block` keeps. -/
def PerGameStruct.load_block (s : PerGameStruct) (game : Game)
    (data : List Nat) : Option (List (List Nat)) :=
  if s.block_terminator ≠ [] ∧ ¬ s.block_terminator.isSuffixOf data then
    none
  else
    let data :=
      if s.block_terminator ≠ [] then
        data.take (data.length - s.block_terminator.length)
      else data
    (divide_block data s.length).mapM (s.load game)

/-- `PerGameStruct.save_block(game, items)`: concatenate the items' saves and
append the terminator. -/
def PerGameStruct.save_block (s : PerGameStruct) (game : Game)
    (items : List (List Nat)) : Option (List Nat) :=
  match items.mapM (s.save game) with
  | none => none
  | some parts => some (parts.flatten ++ s.block_terminator)

end nsmbpy

/-! ## Helper definitions and lemmas -/

/-- The buffer produced by a one-byte `pack_into`: byte `offset` replaced. -/
def listUpd (data : List Nat) (offset v : Nat) : List Nat :=
  data.take offset ++ v :: data.drop (offset + 1)

theorem testBit_andNot (v m i : Nat) :
    (andNot v m).testBit i = (v.testBit i && !(m.testBit i)) := by
  simp only [andNot, Nat.testBit_xor, Nat.testBit_and]
  cases v.testBit i <;> cases m.testBit i <;> rfl

theorem andNot_lt_two_pow {x : Nat} (m : Nat) {k : Nat} (h : x < 2 ^ k) :
    andNot x m < 2 ^ k :=
  Nat.xor_lt_two_pow h (Nat.lt_of_le_of_lt Nat.and_le_left h)

theorem and_two_pow_sub_one_self {x k : Nat} (h : x < 2 ^ k) :
    x &&& (2 ^ k - 1) = x := by
  apply Nat.eq_of_testBit_eq
  intro i
  rw [Nat.testBit_and, Nat.testBit_two_pow_sub_one]
  by_cases hik : i < k
  · simp [hik]
  · have hx : x.testBit i = false :=
      Nat.testBit_lt_two_pow
        (Nat.lt_of_lt_of_le h (Nat.pow_le_pow_right (by norm_num) (by omega)))
    simp [hx, hik]

theorem testBit_and_eq_false {a b : Nat} (h : a &&& b = 0) (i : Nat) :
    (a.testBit i && b.testBit i) = false := by
  rw [← Nat.testBit_and, h, Nat.zero_testBit]

/-- Core mask-preservation fact: or-ing a value whose bits avoid `mB` onto
`o & ~mA` (where `mA`'s bits also avoid `mB`) does not change the bits
selected by `mB`. -/
theorem combine_and_eq {o vA mA mB : Nat}
    (hsub : ∀ i, vA.testBit i = true → mB.testBit i = false)
    (hdisjA : ∀ i, mA.testBit i = true → mB.testBit i = false) :
    (vA ||| andNot o mA) &&& mB = o &&& mB := by
  apply Nat.eq_of_testBit_eq
  intro i
  simp only [Nat.testBit_and, Nat.testBit_or, testBit_andNot]
  cases hv : vA.testBit i
  · cases hm : mA.testBit i
    · simp
    · simp [hdisjA i hm]
  · simp [hsub i hv]

theorem pack_into_one (big : Bool) {offset : Nat} {data : List Nat} {v : Nat}
    (ho : offset < data.length) (hv : v < 256) :
    pack_into big 1 offset data v = some (listUpd data offset v) := by
  unfold pack_into
  rw [if_pos ⟨by omega, by simpa using hv⟩]
  have h1 : natToBytesLE 1 v = [v] := by
    simp [natToBytesLE, Nat.mod_eq_of_lt hv]
  cases big <;> simp [h1, listUpd]

theorem unpack_from_one (big : Bool) {offset : Nat} {data : List Nat}
    (ho : offset < data.length) :
    unpack_from big 1 offset data = some (data.getD offset 0) := by
  unfold unpack_from
  rw [if_pos (by omega)]
  have hdrop : data.drop offset = data.getD offset 0 :: data.drop (offset + 1) := by
    rw [List.drop_eq_getElem_cons ho]
    rw [List.getD_eq_getElem?_getD, List.getElem?_eq_getElem ho]
    rfl
  rw [hdrop]
  cases big <;> simp [bytesToNatLE]

theorem listUpd_length {data : List Nat} {offset v : Nat} (h : offset < data.length) :
    (listUpd data offset v).length = data.length := by
  simp only [listUpd, List.length_append, List.length_take, List.length_cons,
    List.length_drop]
  omega

theorem listUpd_getD_self {data : List Nat} {offset v : Nat} (h : offset < data.length) :
    (listUpd data offset v).getD offset 0 = v := by
  have hlt : (data.take offset).length = offset := by
    rw [List.length_take]; omega
  rw [List.getD_eq_getElem?_getD, listUpd, List.getElem?_append, hlt,
    if_neg (lt_irrefl offset), Nat.sub_self]
  simp

theorem listUpd_getD_ne {data : List Nat} {offset v j : Nat} (h : offset < data.length)
    (hne : j ≠ offset) :
    (listUpd data offset v).getD j 0 = data.getD j 0 := by
  have hlt : (data.take offset).length = offset := by
    rw [List.length_take]; omega
  rw [List.getD_eq_getElem?_getD, List.getD_eq_getElem?_getD, listUpd,
    List.getElem?_append, hlt]
  rcases Nat.lt_or_ge j offset with hj | hj
  · rw [if_pos hj, List.getElem?_take, if_pos hj]
  · rw [if_neg (by omega)]
    have hsub : j - offset = (j - offset - 1) + 1 := by omega
    rw [hsub, List.getElem?_cons_succ, List.getElem?_drop]
    have hidx : offset + 1 + (j - offset - 1) = j := by omega
    rw [hidx]

/-- `ConcreteNumericField.load` succeeds whenever the field's bytes lie
inside the buffer (there is no struct-length validation anywhere in
`PerGameStruct.load`). -/
theorem cnfLoad_isSome {f : nsmbpy.ConcreteNumericField} {g : nsmbpy.Game}
    {data : List Nat} (h : f.offset + f.w ≤ data.length) :
    (f.load g data).isSome := by
  unfold nsmbpy.ConcreteNumericField.load unpack_from
  rw [if_pos h]
  rfl

/-- `mapM` over `Option` succeeds when every element's load succeeds. -/
theorem mapM_load_isSome {α : Type} (fields : List α) (loadF : α → Option Nat)
    (h : ∀ f ∈ fields, (loadF f).isSome) :
    (fields.mapM loadF).isSome := by
  induction fields with
  | nil => rfl
  | cons f rest ih =>
    have hf := h f (List.mem_cons_self f rest)
    have hrest := ih (fun f' hf' => h f' (List.mem_cons_of_mem f hf'))
    rw [List.mapM_cons]
    cases hlf : loadF f with
    | none => rw [hlf] at hf; simp at hf
    | some v =>
      cases hrest' : rest.mapM loadF with
      | none => rw [hrest'] at hrest; simp at hrest
      | some vs => simp [hlf, hrest']

/-- C10: `BaseStruct` equality is determined solely by raw buffer content:
two instances (regardless of their field tables / classes) compare equal
exactly when their buffers are byte-for-byte equal, and an instance compares
equal to a plain `bytes`/`bytearray` with the same content. -/
theorem C10_eq_by_buffer_content (a b : nsmbpy2.BaseStruct) (bs : List Nat) :
    (nsmbpy2.BaseStruct.eq a b = true ↔ a.raw_data = b.raw_data) ∧
    (nsmbpy2.BaseStruct.eqBytes a bs = true ↔ a.raw_data = bs) := by
  unfold nsmbpy2.BaseStruct.eq nsmbpy2.BaseStruct.eqBytes
  exact ⟨beq_iff_eq, beq_iff_eq⟩

/-- C5 (amended): in `VariesPerGame.__init__` the individual per-variant
assignments are applied first and the group expansions afterwards (`wiiu`,
then `like_nsmbu`), so when a variant is targeted by both an individual
assignment and a group expansion, `get` returns the group's value (with
`like_nsmbu` overriding `wiiu`), regardless of argument source order. -/
theorem C5_group_overrides_individual {α : Type}
    (default nsmb nsmbw nsmb2 nsmbu nslu nsmbudx wiiu : Option α) (vw vl : α)
    (g : nsmbpy.Game) :
    (g.is_like_nsmbu = true →
      (nsmbpy.VariesPerGame.make default nsmb nsmbw nsmb2 nsmbu nslu nsmbudx
        wiiu (some vl)).get g = some vl) ∧
    (g.is_wii_u = true →
      (nsmbpy.VariesPerGame.make default nsmb nsmbw nsmb2 nsmbu nslu nsmbudx
        (some vw) none).get g = some vw) := by
  constructor
  · intro h
    simp [nsmbpy.VariesPerGame.make, nsmbpy.VariesPerGame.get, h]
  · intro h
    simp [nsmbpy.VariesPerGame.make, nsmbpy.VariesPerGame.get, h]

/-- Witness for C5: NSMBU is covered by both groups; with an individual
`nsmbu=1` assignment present, `get` returns the group value. -/
theorem C5_group_overrides_individual_witness :
    (nsmbpy.VariesPerGame.make (α := Nat) none none none none (some 1) none none
      none (some 3)).get .NEW_SUPER_MARIO_BROS_U = some 3 ∧
    (nsmbpy.VariesPerGame.make (α := Nat) none none none none (some 1) none none
      (some 2) none).get .NEW_SUPER_MARIO_BROS_U = some 2 :=
  ⟨(C5_group_overrides_individual none none none none (some 1) none none none
      2 3 .NEW_SUPER_MARIO_BROS_U).1 (by decide),
   (C5_group_overrides_individual none none none none (some 1) none none none
      2 3 .NEW_SUPER_MARIO_BROS_U).2 (by decide)⟩

/-- Counterexample for C5 as stated: with `nsmbu=1` (individual) and `wiiu=2`
(group covering NSMBU), `get(NSMBU)` returns the group value `2`, not the
individually-assigned `1` the claim requires. -/
theorem C5_counterexample :
    (nsmbpy.VariesPerGame.make (α := Nat) none none none none (some 1) none none
      (some 2) none).get .NEW_SUPER_MARIO_BROS_U = some 2 ∧
    (some 2 : Option Nat) ≠ some 1 := by
  constructor
  · rfl
  · decide

/-- C4 (amended): the variant-scoped `StructFieldEnum.load` scans members in
order, returns the first whose per-variant representation equals the raw
value, and fails when none matches; but the `nsmbpy2` enum-cast field
(`NumericFieldEnum.get`) silently returns the unmatched raw value instead of
failing. -/
theorem C4_enum_load_amended :
    (∀ (members : List (nsmbpy.VariesPerGame Nat)) (g : nsmbpy.Game) (v : Nat),
      nsmbpy.StructFieldEnum.load members g v = none ↔
        ∀ m ∈ members, m.get g ≠ some v) ∧
    (∀ (members : List (nsmbpy.VariesPerGame Nat)) (g : nsmbpy.Game) (v i : Nat),
      nsmbpy.StructFieldEnum.load members g v = some i →
        ∃ m, members[i]? = some m ∧ m.get g = some v ∧
          ∀ j, j < i → ∀ m', members[j]? = some m' → m'.get g ≠ some v) ∧
    (∀ (parent : nsmbpy2.NumericField) (members : List Nat) (data : List Nat)
      (v : Nat), parent.get data = some v → v ∉ members →
      nsmbpy2.NumericFieldEnum.get parent members data =
        some (nsmbpy2.EnumResult.raw v)) := by
  refine ⟨?_, ?_, ?_⟩
  · intro members g v
    induction members with
    | nil => simp [nsmbpy.StructFieldEnum.load]
    | cons m rest ih =>
      by_cases hm : m.get g = some v
      · simp [nsmbpy.StructFieldEnum.load, hm]
      · simp only [nsmbpy.StructFieldEnum.load, if_neg hm, Option.map_eq_none',
          List.mem_cons]
        rw [ih]
        constructor
        · rintro h m' (rfl | hm')
          · exact hm
          · exact h m' hm'
        · intro h m' hm'
          exact h m' (Or.inr hm')
  · intro members g v
    induction members with
    | nil => intro i h; simp [nsmbpy.StructFieldEnum.load] at h
    | cons m rest ih =>
      intro i h
      by_cases hm : m.get g = some v
      · rw [nsmbpy.StructFieldEnum.load, if_pos hm] at h
        cases h
        exact ⟨m, by simp, hm, fun j hj => by omega⟩
      · rw [nsmbpy.StructFieldEnum.load, if_neg hm] at h
        rw [Option.map_eq_some'] at h
        obtain ⟨i', hi', rfl⟩ := h
        obtain ⟨m', hm', hv', hfst⟩ := ih i' hi'
        refine ⟨m', by simpa using hm', hv', ?_⟩
        intro j hj m'' hm''
        match j with
        | 0 =>
          rw [List.getElem?_cons_zero] at hm''
          cases hm''
          exact hm
        | j' + 1 =>
          rw [List.getElem?_cons_succ] at hm''
          exact hfst j' (by omega) m'' hm''
  · intro parent members data v hget hmem
    unfold nsmbpy2.NumericFieldEnum.get
    rw [hget]
    simp [hmem]

/-- Witness for C4: a buffer holding `5` read through an enum-cast whose
members are `{0, 1}` — the field's get returns the raw `5`. -/
theorem C4_enum_load_amended_witness :
    nsmbpy2.NumericField.get (.base false 1 0) [5] = some 5 ∧
    (5 : Nat) ∉ ([0, 1] : List Nat) ∧
    nsmbpy2.NumericFieldEnum.get (.base false 1 0) [0, 1] [5] =
      some (nsmbpy2.EnumResult.raw 5) :=
  ⟨by decide, by decide,
   C4_enum_load_amended.2.2 (.base false 1 0) [0, 1] [5] 5 (by decide) (by decide)⟩

/-- Counterexample for C4 as stated: the `nsmbpy2` enum-cast transform
returns the unmatched raw value `5` instead of failing with
`UnknownEnumValue`. -/
theorem C4_counterexample :
    nsmbpy2.NumericFieldEnum.get (.base false 1 0) [0, 1] [5] =
      some (nsmbpy2.EnumResult.raw 5) ∧
    some (nsmbpy2.EnumResult.raw 5) ≠ none := by
  constructor
  · decide
  · decide

/-- C6 (amended): the `BaseStruct` constructor succeeds exactly when the
source bytes' length equals the subclass's `raw_data_length`, copying the
bytes into the new instance; `PerGameStruct.load`, however, performs no
length validation at all — it succeeds whenever every field of the variant
lies within the given buffer, regardless of the declared struct length. -/
theorem C6_length_validation_amended :
    (∀ (st : nsmbpy2.StructType) (data : List Nat),
      ((st.init data).isSome ↔ data.length = st.raw_data_length) ∧
      ∀ inst, st.init data = some inst →
        inst.raw_data = data ∧ inst.fields = st.fields) ∧
    (∀ (s : nsmbpy.PerGameStruct) (g : nsmbpy.Game) (data : List Nat),
      (∀ f ∈ s.fields, f.offset + f.w ≤ data.length) →
      (s.load g data).isSome) := by
  constructor
  · intro st data
    constructor
    · unfold nsmbpy2.StructType.init
      split
      · simp_all
      · simp_all
    · intro inst hinst
      unfold nsmbpy2.StructType.init at hinst
      split at hinst
      · cases hinst; exact ⟨rfl, rfl⟩
      · cases hinst
  · intro s g data h
    unfold nsmbpy.PerGameStruct.load
    exact mapM_load_isSome s.fields _ (fun f hf => cnfLoad_isSome (h f hf))

/-- Witness for C6: both parts at concrete inputs — a 3-byte buffer is
rejected by a `raw_data_length = 2` subclass, and a `length = 4`
`PerGameStruct` still loads from a 2-byte buffer. -/
theorem C6_length_validation_amended_witness :
    ¬((nsmbpy2.StructType.init ⟨2, []⟩ [1, 2, 3]).isSome = true) ∧
    (nsmbpy.PerGameStruct.load ⟨4, [], [⟨1, 0, none, []⟩]⟩
      .NEW_SUPER_MARIO_BROS [7, 8]).isSome = true :=
  ⟨fun h => by
      have := ((C6_length_validation_amended.1 ⟨2, []⟩ [1, 2, 3]).1).mp h
      simp at this,
   C6_length_validation_amended.2 ⟨4, [], [⟨1, 0, none, []⟩]⟩
      .NEW_SUPER_MARIO_BROS [7, 8] (by decide)⟩

/-- Counterexample for C6 as stated: `PerGameStruct.load` succeeds on a
2-byte buffer for a descriptor whose per-variant length is 4 — no
`LengthMismatch` is raised. -/
theorem C6_counterexample :
    nsmbpy.PerGameStruct.load ⟨4, [], [⟨1, 0, none, []⟩]⟩
      .NEW_SUPER_MARIO_BROS [7, 8] = some [7] ∧
    ([7, 8] : List Nat).length ≠ 4 := by
  constructor
  · decide
  · decide

/-- The base `NumericField.set` on a one-byte field with a plain
(non-sentinel, in-range) mask: reads the original byte and writes
`(value & mask) | (orig & ~mask)`. -/
theorem NumericField_set_base_posMask (big : Bool) {off : Nat} {data : List Nat}
    (v m : Nat) (ho : off < data.length) (horig : data.getD off 0 < 256)
    (hm : m < 256) :
    nsmbpy2.NumericField.set (.base big 1 off) data v (.pos m) =
      some (listUpd data off ((v &&& m) ||| andNot (data.getD off 0) m)) := by
  have h256 : (256 : Nat) = 2 ^ 8 := by norm_num
  have hv' : v &&& m < 256 := Nat.lt_of_le_of_lt Nat.and_le_right hm
  have hnot : andNot (data.getD off 0) m < 256 := by
    rw [h256] at horig ⊢
    exact andNot_lt_two_pow m horig
  have hlt : (v &&& m) ||| andNot (data.getD off 0) m < 256 := by
    rw [h256] at hv' hnot ⊢
    exact Nat.or_lt_two_pow hv' hnot
  have hmo : (PyMask.pos m).isMinusOne = false := rfl
  rw [nsmbpy2.NumericField.set, hmo]
  simp only [Bool.false_eq_true, if_false, unpack_from_one big ho, PyMask.maskVal,
    PyMask.maskValCompl]
  exact pack_into_one big ho hlt

/-- C2: setting a field through a mask chain preserves, for all legal
values and all buffers, the value read back by any sibling field occupying
disjoint bits of the same byte — in both engines.  The nsmbpy2 write goes
through `NumericField.set`'s `(value & bitmask) | (orig & ~bitmask)`
combine; the nsmbpy write goes through `ConcreteNumericField.save`'s
`(origValue & ~bitmask) | value` combine. -/
theorem C2_mask_preservation (big : Bool) (g : nsmbpy.Game) (off mA mB s v : Nat)
    (data : List Nat)
    (ho : off < data.length) (horig : data.getD off 0 < 256) (hmA : mA < 256)
    (hdisj : mA &&& mB = 0) :
    (∃ data',
      nsmbpy2.NumericField.set (.mask (.base big 1 off) mA) data v (.neg 0) =
        some data' ∧
      nsmbpy2.NumericField.get (.rshift (.mask (.base big 1 off) mB) s) data' =
        nsmbpy2.NumericField.get (.rshift (.mask (.base big 1 off) mB) s) data) ∧
    (∃ data',
      nsmbpy.ConcreteNumericField.save ⟨1, off, none, [.bitmask mA]⟩ g data v =
        some data' ∧
      nsmbpy.ConcreteNumericField.load ⟨1, off, none, [.bitmask mB, .rightShift s]⟩
        g data' =
      nsmbpy.ConcreteNumericField.load ⟨1, off, none, [.bitmask mB, .rightShift s]⟩
        g data) := by
  have hbit : ∀ i, mA.testBit i = true → mB.testBit i = false := by
    intro i hi
    have h := testBit_and_eq_false hdisj i
    rw [hi] at h
    simpa using h
  have h256 : (256 : Nat) = 2 ^ 8 := by norm_num
  constructor
  · -- nsmbpy2 engine
    have hland : (PyMask.neg 0).land mA = .pos mA := by
      simp [PyMask.land, Nat.shiftRight_zero, Nat.shiftLeft_zero]
    rw [nsmbpy2.NumericField.set, hland,
      NumericField_set_base_posMask big (v &&& mA) mA ho horig hmA]
    refine ⟨_, rfl, ?_⟩
    have hlen : (listUpd data off ((v &&& mA &&& mA) ||| andNot (data.getD off 0) mA)).length
        = data.length := listUpd_length ho
    have ho' : off < (listUpd data off ((v &&& mA &&& mA) ||| andNot (data.getD off 0) mA)).length := by
      rw [hlen]; exact ho
    simp only [nsmbpy2.NumericField.get, unpack_from_one big ho,
      unpack_from_one big ho', Option.map_some', listUpd_getD_self ho]
    have hsub : ∀ i, ((v &&& mA &&& mA).testBit i = true) → mB.testBit i = false := by
      intro i hi
      rw [Nat.testBit_and] at hi
      cases h' : mA.testBit i
      · rw [h'] at hi; simp at hi
      · exact hbit i h'
    rw [combine_and_eq hsub hbit]
  · -- nsmbpy engine
    have hover : mA &&& 255 = mA := by
      rw [show (255 : Nat) = 2 ^ 8 - 1 by norm_num]
      exact and_two_pow_sub_one_self (h256 ▸ hmA)
    have hgb : (⟨1, off, none, [.bitmask mA]⟩ : nsmbpy.ConcreteNumericField).get_bitmask
        = .pos mA := by
      simp [nsmbpy.ConcreteNumericField.get_bitmask,
        nsmbpy.ConcreteNumericField.overall_bitmask, nsmbpy.Transformation.unbitmask,
        PyMask.land, PyMask.isMinusOne, Nat.shiftRight_zero, Nat.shiftLeft_zero, hover]
    have hv' : v &&& mA < 256 := Nat.lt_of_le_of_lt Nat.and_le_right hmA
    have hnot : andNot (data.getD off 0) mA < 256 := by
      rw [h256] at horig ⊢
      exact andNot_lt_two_pow mA horig
    have hlt : andNot (data.getD off 0) mA ||| (v &&& mA) < 256 := by
      rw [h256] at hv' hnot ⊢
      exact Nat.or_lt_two_pow hnot hv'
    rw [nsmbpy.ConcreteNumericField.save]
    simp only [List.reverse_singleton, List.foldl_cons, List.foldl_nil,
      nsmbpy.Transformation.untransform, hgb]
    have hmo : (PyMask.pos mA).isMinusOne = false := rfl
    rw [hmo]
    simp only [Bool.false_eq_true, if_false]
    have hbig : (⟨1, off, none, [.bitmask mA]⟩ : nsmbpy.ConcreteNumericField).big g
        = g.endianness := rfl
    rw [hbig, unpack_from_one _ ho]
    simp only [PyMask.maskValCompl]
    rw [pack_into_one _ ho hlt]
    refine ⟨_, rfl, ?_⟩
    have hlen : (listUpd data off (andNot (data.getD off 0) mA ||| (v &&& mA))).length
        = data.length := listUpd_length ho
    have ho' : off < (listUpd data off (andNot (data.getD off 0) mA ||| (v &&& mA))).length := by
      rw [hlen]; exact ho
    rw [nsmbpy.ConcreteNumericField.load, nsmbpy.ConcreteNumericField.load]
    have hbigB : (⟨1, off, none, [.bitmask mB, .rightShift s]⟩ :
        nsmbpy.ConcreteNumericField).big g = g.endianness := rfl
    rw [hbigB, unpack_from_one _ ho, unpack_from_one _ ho']
    simp only [List.foldl_cons, List.foldl_nil, nsmbpy.Transformation.transform,
      listUpd_getD_self ho]
    have hsub : ∀ i, ((v &&& mA).testBit i = true) → mB.testBit i = false := by
      intro i hi
      rw [Nat.testBit_and] at hi
      cases h' : mA.testBit i
      · rw [h'] at hi; simp at hi
      · exact hbit i h'
    rw [Nat.or_comm, combine_and_eq hsub hbit]

/-- Witness for C2: nibble fields `mask(0x0F)` and `mask(0xF0).rshift(4)`
share byte 0 of the buffer `[0xA5]`; setting the low nibble to 3 leaves
the high-nibble read unchanged in both engines. -/
theorem C2_mask_preservation_witness :
    (0 : Nat) < ([165] : List Nat).length ∧ (15 : Nat) &&& 240 = 0 ∧
    ((∃ data',
      nsmbpy2.NumericField.set (.mask (.base false 1 0) 15) [165] 3 (.neg 0) =
        some data' ∧
      nsmbpy2.NumericField.get (.rshift (.mask (.base false 1 0) 240) 4) data' =
        nsmbpy2.NumericField.get (.rshift (.mask (.base false 1 0) 240) 4) [165]) ∧
    (∃ data',
      nsmbpy.ConcreteNumericField.save ⟨1, 0, none, [.bitmask 15]⟩
        .NEW_SUPER_MARIO_BROS [165] 3 = some data' ∧
      nsmbpy.ConcreteNumericField.load ⟨1, 0, none, [.bitmask 240, .rightShift 4]⟩
        .NEW_SUPER_MARIO_BROS data' =
      nsmbpy.ConcreteNumericField.load ⟨1, 0, none, [.bitmask 240, .rightShift 4]⟩
        .NEW_SUPER_MARIO_BROS [165])) :=
  ⟨by decide, by decide,
   C2_mask_preservation false .NEW_SUPER_MARIO_BROS 0 15 240 4 3 [165]
     (by decide) (by decide) (by decide) (by decide)⟩

/-- Writing `(if b then 2^n else 0) | (orig & ~2^n)` sets exactly bit `n`
to `b` and leaves every other bit of `orig` unchanged. -/
theorem testBit_bitWrite (orig : Nat) (b : Bool) (n i : Nat) :
    ((if b then 2 ^ n else 0) ||| andNot orig (2 ^ n)).testBit i =
      if i = n then b else orig.testBit i := by
  by_cases h : n = i
  · subst h
    cases b <;> simp [Nat.testBit_or, testBit_andNot, Nat.testBit_two_pow,
      Nat.zero_testBit]
  · cases b <;> simp [Nat.testBit_or, testBit_andNot, Nat.testBit_two_pow,
      Nat.zero_testBit, h, Ne.symm h]

/-- C7 (amended): in the `perGameStructs` engine the boolean-cast
transformation folds the save bitmask as `incoming & 1` (the fold running
from the last transformation back to the first, starting from the `-1`
sentinel), so `get_bitmask` of a `rshift(n).mask(1).bool()` chain is
`1 << n`; in the `nsmbpy2` engine `NumericFieldBool.set` passes the
incoming mask through unchanged, but the `mask(1)` step supplies the `& 1`,
so in both engines a field read as `rshift(n).mask(1).bool()` owns exactly
bit `n` of the backing byte when written: the write sets bit `n` to the
boolean and leaves every other bit and every other byte unchanged. -/
theorem C7_mask_bool_owns_one_bit (big : Bool) (g : nsmbpy.Game) (off n : Nat)
    (b : Bool) (data : List Nat)
    (ho : off < data.length) (horig : data.getD off 0 < 256) (hn : n < 8) :
    ((⟨1, off, none, [.rightShift n, .bitmask 1, .boolCast]⟩ :
        nsmbpy.ConcreteNumericField).get_bitmask = .pos (2 ^ n)) ∧
    (∃ data',
      nsmbpy2.NumericFieldBool.set (.mask (.rshift (.base big 1 off) n) 1)
        data b (.neg 0) = some data' ∧
      data'.length = data.length ∧
      (∀ i, (data'.getD off 0).testBit i =
        if i = n then b else (data.getD off 0).testBit i) ∧
      (∀ j, j ≠ off → data'.getD j 0 = data.getD j 0)) ∧
    (∃ data',
      nsmbpy.ConcreteNumericField.save
        ⟨1, off, none, [.rightShift n, .bitmask 1, .boolCast]⟩ g data
        (if b then 1 else 0) = some data' ∧
      data'.length = data.length ∧
      (∀ i, (data'.getD off 0).testBit i =
        if i = n then b else (data.getD off 0).testBit i) ∧
      (∀ j, j ≠ off → data'.getD j 0 = data.getD j 0)) := by
  have h2n : (2 : Nat) ^ n < 256 := by
    calc (2 : Nat) ^ n < 2 ^ 8 := Nat.pow_lt_pow_right (by norm_num) hn
    _ = 256 := by norm_num
  have hover : (1 <<< n) &&& 255 = 2 ^ n := by
    rw [Nat.one_shiftLeft, show (255 : Nat) = 2 ^ 8 - 1 by norm_num]
    exact and_two_pow_sub_one_self h2n
  have hgb : (⟨1, off, none, [.rightShift n, .bitmask 1, .boolCast]⟩ :
      nsmbpy.ConcreteNumericField).get_bitmask = .pos (2 ^ n) := by
    simp [nsmbpy.ConcreteNumericField.get_bitmask,
      nsmbpy.ConcreteNumericField.overall_bitmask, nsmbpy.Transformation.unbitmask,
      PyMask.land, PyMask.shiftl, PyMask.isMinusOne, Nat.shiftRight_zero,
      Nat.shiftLeft_zero, hover]
  have hvm : ((if b then 1 else 0) <<< n) &&& 2 ^ n = (if b then 2 ^ n else 0) := by
    cases b <;> simp [Nat.one_shiftLeft, Nat.zero_shiftLeft, Nat.and_self, Nat.zero_and]
  refine ⟨hgb, ?_, ?_⟩
  · -- nsmbpy2 engine
    have hland1 : (PyMask.neg 0).land 1 = .pos 1 := by
      simp [PyMask.land, Nat.shiftRight_zero, Nat.shiftLeft_zero]
    have hshiftl : (PyMask.pos 1).shiftl n = .pos (1 <<< n) := rfl
    have hand1 : (if b then 1 else 0) &&& 1 = (if b then 1 else 0 : Nat) := by
      cases b <;> rfl
    rw [nsmbpy2.NumericFieldBool.set, nsmbpy2.NumericField.set, hland1, hand1,
      nsmbpy2.NumericField.set, hshiftl, Nat.one_shiftLeft,
      NumericField_set_base_posMask big _ _ ho horig h2n, hvm]
    refine ⟨_, rfl, listUpd_length ho, ?_, fun j hj => listUpd_getD_ne ho hj⟩
    intro i
    rw [listUpd_getD_self ho, testBit_bitWrite]
  · -- nsmbpy engine
    have huntrans :
        List.foldl (fun v (t : nsmbpy.Transformation) => t.untransform v)
          (if b then 1 else 0)
          [nsmbpy.Transformation.rightShift n, .bitmask 1, .boolCast].reverse =
          (if b then 2 ^ n else 0) := by
      cases b <;> simp [nsmbpy.Transformation.untransform, Nat.one_shiftLeft,
        Nat.zero_shiftLeft]
    rw [nsmbpy.ConcreteNumericField.save]
    simp only [huntrans, hgb]
    have hmo : (PyMask.pos (2 ^ n)).isMinusOne = false := rfl
    rw [hmo]
    simp only [Bool.false_eq_true, if_false]
    have hbig : (⟨1, off, none, [.rightShift n, .bitmask 1, .boolCast]⟩ :
        nsmbpy.ConcreteNumericField).big g = g.endianness := rfl
    rw [hbig, unpack_from_one _ ho]
    simp only [PyMask.maskValCompl]
    have hiflt : (if b then 2 ^ n else 0 : Nat) < 256 := by
      cases b <;> simp [h2n]
    have hlt : andNot (data.getD off 0) (2 ^ n) ||| (if b then 2 ^ n else 0) < 256 := by
      have h256 : (256 : Nat) = 2 ^ 8 := by norm_num
      rw [h256] at horig hiflt ⊢
      exact Nat.or_lt_two_pow (andNot_lt_two_pow _ horig) hiflt
    rw [pack_into_one _ ho hlt]
    refine ⟨_, rfl, listUpd_length ho, ?_, fun j hj => listUpd_getD_ne ho hj⟩
    intro i
    rw [listUpd_getD_self ho, Nat.or_comm, testBit_bitWrite]

/-- Witness for C7: `rshift(6).mask(1).bool()` on the byte `0xA5` with
`b = true` in both engines at concrete inputs. -/
theorem C7_mask_bool_owns_one_bit_witness :
    (0 : Nat) < ([165] : List Nat).length ∧ (165 : Nat) < 256 ∧ (6 : Nat) < 8 ∧
    (((⟨1, 0, none, [.rightShift 6, .bitmask 1, .boolCast]⟩ :
        nsmbpy.ConcreteNumericField).get_bitmask = .pos (2 ^ 6)) ∧
    (∃ data',
      nsmbpy2.NumericFieldBool.set (.mask (.rshift (.base false 1 0) 6) 1)
        [165] true (.neg 0) = some data' ∧
      data'.length = ([165] : List Nat).length ∧
      (∀ i, (data'.getD 0 0).testBit i =
        if i = 6 then true else (([165] : List Nat).getD 0 0).testBit i) ∧
      (∀ j, j ≠ 0 → data'.getD j 0 = ([165] : List Nat).getD j 0)) ∧
    (∃ data',
      nsmbpy.ConcreteNumericField.save
        ⟨1, 0, none, [.rightShift 6, .bitmask 1, .boolCast]⟩
        .NEW_SUPER_MARIO_BROS [165] (if true then 1 else 0) = some data' ∧
      data'.length = ([165] : List Nat).length ∧
      (∀ i, (data'.getD 0 0).testBit i =
        if i = 6 then true else (([165] : List Nat).getD 0 0).testBit i) ∧
      (∀ j, j ≠ 0 → data'.getD j 0 = ([165] : List Nat).getD j 0))) :=
  ⟨by decide, by decide, by decide,
   C7_mask_bool_owns_one_bit false .NEW_SUPER_MARIO_BROS 0 6 true [165]
     (by decide) (by decide) (by decide)⟩

/-- Counterexample for C7 as stated: a bare `bool()` chain.  In the
`nsmbpy2` engine `NumericFieldBool.set` passes the `-1` sentinel through
unchanged, so writing `True` over the byte `0xFE` clobbers the whole byte to
`0x01`; had the boolean-cast folded the mask as `incoming & 1` (as the
`perGameStructs` engine does), the result would have been `0xFF`. -/
theorem C7_counterexample :
    nsmbpy2.NumericFieldBool.set (.base false 1 0) [254] true (.neg 0) =
      some [1] ∧
    nsmbpy.ConcreteNumericField.save ⟨1, 0, none, [.boolCast]⟩
      .NEW_SUPER_MARIO_BROS [254] 1 = some [255] ∧
    some ([1] : List Nat) ≠ some [255] := by
  refine ⟨by decide, by decide, by decide⟩

/-- C1 (amended): the round-trip law holds in the `BaseStruct` engine: for
every subclass and instance, constructing a new instance from `I`'s saved
bytes succeeds and saves back to byte-identical output (the constructor
copies the bytes and save returns a copy of the buffer).  (In the
`PerGameStruct` engine, which re-decodes and re-packs every field, the law
does not hold for all descriptors — see the counterexample.) -/
theorem C1_roundtrip_amended (st : nsmbpy2.StructType) (I : nsmbpy2.BaseStruct)
    (h : I.raw_data.length = st.raw_data_length) :
    ∃ J, st.init I.toBytes = some J ∧ J.toBytes = I.toBytes := by
  refine ⟨⟨st.fields, I.raw_data⟩, ?_, rfl⟩
  unfold nsmbpy2.StructType.init nsmbpy2.BaseStruct.toBytes
  rw [if_pos h]

/-- Witness for C1 at a concrete instance. -/
theorem C1_roundtrip_amended_witness :
    (nsmbpy2.BaseStruct.raw_data ⟨[], [9, 7]⟩).length = 2 ∧
    ∃ J, nsmbpy2.StructType.init ⟨2, []⟩
        (nsmbpy2.BaseStruct.toBytes ⟨[], [9, 7]⟩) = some J ∧
      J.toBytes = nsmbpy2.BaseStruct.toBytes ⟨[], [9, 7]⟩ :=
  ⟨by decide, C1_roundtrip_amended ⟨2, []⟩ ⟨[], [9, 7]⟩ (by decide)⟩

/-- Counterexample for C1 as stated: in the `PerGameStruct` engine, a
1-byte struct with fields `U8(0).mask(2)` and `U8(0).bool()` and valid
values `2` / `False` saves to `0x02`; loading reads the bool field as
`bool(0x02) = True` (its load is not masked), so re-saving yields `0x03`:
`load(save(I)).save() != I.save()`. -/
theorem C1_counterexample :
    (nsmbpy.PerGameStruct.save
      ⟨1, [], [⟨1, 0, none, [.bitmask 2]⟩, ⟨1, 0, none, [.boolCast]⟩]⟩
      .NEW_SUPER_MARIO_BROS [2, 0] = some [2]) ∧
    (nsmbpy.PerGameStruct.load
      ⟨1, [], [⟨1, 0, none, [.bitmask 2]⟩, ⟨1, 0, none, [.boolCast]⟩]⟩
      .NEW_SUPER_MARIO_BROS [2] = some [2, 1]) ∧
    (nsmbpy.PerGameStruct.save
      ⟨1, [], [⟨1, 0, none, [.bitmask 2]⟩, ⟨1, 0, none, [.boolCast]⟩]⟩
      .NEW_SUPER_MARIO_BROS [2, 1] = some [3]) ∧
    some ([3] : List Nat) ≠ some [2] := by
  refine ⟨by decide, by decide, by decide, by decide⟩

/-- A failed `Field.set` leaves the buffer untouched: every error path
raises before any byte is written. -/
theorem Field_set_err_unchanged (f : nsmbpy2.Field) (data : List Nat)
    (value : nsmbpy2.Value) :
    (f.set data value).2.isSome → (f.set data value).1 = data := by
  cases f with
  | numeric chain =>
    cases value with
    | int n =>
      cases hs : chain.set data n (.neg 0) <;>
        simp [nsmbpy2.Field.set, nsmbpy2.Value.toPackable, hs]
    | bool b =>
      cases hs : chain.set data (if b then 1 else 0) (.neg 0) <;>
        simp [nsmbpy2.Field.set, nsmbpy2.Value.toPackable, hs]
    | enumMember n =>
      cases hs : chain.set data n (.neg 0) <;>
        simp [nsmbpy2.Field.set, nsmbpy2.Value.toPackable, hs]
    | bytes bs => simp [nsmbpy2.Field.set, nsmbpy2.Value.toPackable]
    | str e => simp [nsmbpy2.Field.set, nsmbpy2.Value.toPackable]
  | boolean chain =>
    cases hs : nsmbpy2.NumericFieldBool.set chain data value.truthy (.neg 0) <;>
      simp [nsmbpy2.Field.set, hs]
  | enum chain members =>
    cases value with
    | int n =>
      cases hs : nsmbpy2.NumericFieldEnum.set chain data n (.neg 0) <;>
        simp [nsmbpy2.Field.set, nsmbpy2.Value.toPackable, hs]
    | bool b =>
      cases hs : nsmbpy2.NumericFieldEnum.set chain data (if b then 1 else 0) (.neg 0) <;>
        simp [nsmbpy2.Field.set, nsmbpy2.Value.toPackable, hs]
    | enumMember n =>
      cases hs : nsmbpy2.NumericFieldEnum.set chain data n (.neg 0) <;>
        simp [nsmbpy2.Field.set, nsmbpy2.Value.toPackable, hs]
    | bytes bs => simp [nsmbpy2.Field.set]
    | str e => simp [nsmbpy2.Field.set]
  | bytestring offset length =>
    cases value <;> simp [nsmbpy2.Field.set]
  | string offset length =>
    cases value with
    | str enc =>
      simp only [nsmbpy2.Field.set]
      split <;> split <;> simp
    | int n => simp [nsmbpy2.Field.set]
    | bool b => simp [nsmbpy2.Field.set]
    | enumMember n => simp [nsmbpy2.Field.set]
    | bytes bs => simp [nsmbpy2.Field.set]

/-- C9: whenever a struct instance's `set` fails (unknown field name, value
not of the field's logical type, string too long for its field, or numeric
overflow during packing), the instance's raw buffer is byte-for-byte
unchanged afterwards: the new raw value is fully computed and validated
before any byte is written. -/
theorem C9_failed_set_leaves_buffer (s : nsmbpy2.BaseStruct) (key : String)
    (value : nsmbpy2.Value) :
    (s.set key value).2.isSome → (s.set key value).1 = s.raw_data := by
  unfold nsmbpy2.BaseStruct.set
  cases hlk : s.fields.lookup key with
  | none => intro _; rfl
  | some f => exact Field_set_err_unchanged f s.raw_data value

/-- Witness for C9: setting an unknown field name fails and leaves the
buffer unchanged. -/
theorem C9_failed_set_leaves_buffer_witness :
    ((⟨[("x", .numeric (.base false 1 0))], [0]⟩ : nsmbpy2.BaseStruct).set "y"
      (.int 5)).2.isSome = true ∧
    ((⟨[("x", .numeric (.base false 1 0))], [0]⟩ : nsmbpy2.BaseStruct).set "y"
      (.int 5)).1 = [0] :=
  ⟨by decide,
   C9_failed_set_leaves_buffer ⟨[("x", .numeric (.base false 1 0))], [0]⟩ "y"
     (.int 5) (by decide)⟩

/-- With an empty terminator, the `load_struct_array` loop hits the trailing
partial chunk (when the length is not a multiple of the item width) and the
`BaseStruct` constructor rejects it. -/
theorem load_go_partial_none (st : nsmbpy2.StructType) (data : List Nat) :
    ∀ (fuel offset : Nat), 0 < st.raw_data_length →
    (data.length - offset) % st.raw_data_length ≠ 0 →
    data.length - offset < fuel →
    nsmbpy2.load_struct_array_go st data [] fuel offset = none := by
  intro fuel
  induction fuel with
  | zero => intro offset _ _ h; omega
  | succ fuel ih =>
    intro offset hL hmod hfuel
    have hR : data.length - offset ≠ 0 := fun h => hmod (by rw [h]; simp)
    rw [nsmbpy2.load_struct_array_go]
    rw [if_pos (by simp only [List.length_nil]; omega)]
    rw [if_neg (by simp)]
    have hchunk : ((data.drop offset).take st.raw_data_length).length
        = min st.raw_data_length (data.length - offset) := by
      rw [List.length_take, List.length_drop]
    by_cases hcase : data.length - offset < st.raw_data_length
    · have hinit : st.init ((data.drop offset).take st.raw_data_length) = none := by
        unfold nsmbpy2.StructType.init
        rw [if_neg]
        rw [hchunk]
        omega
      rw [hinit]
    · have hinit : st.init ((data.drop offset).take st.raw_data_length)
          = some ⟨st.fields, (data.drop offset).take st.raw_data_length⟩ := by
        unfold nsmbpy2.StructType.init
        rw [if_pos]
        rw [hchunk]
        omega
      rw [hinit]
      have hrec : nsmbpy2.load_struct_array_go st data [] fuel
          (offset + st.raw_data_length) = none := by
        apply ih _ hL
        · have h1 : data.length - (offset + st.raw_data_length)
              = (data.length - offset) - st.raw_data_length := by omega
          rw [h1, ← Nat.mod_eq_sub_mod (by omega)]
          exact hmod
        · omega
      rw [hrec]
      rfl

/-- C3 (amended): in the `nsmbpy2` engine with an empty terminator, loading
an array from a buffer whose length is not an exact multiple of the item
width always fails (the trailing partial chunk is rejected by the
constructor's length check); but the `nsmbpy` engine's `divide_block` keeps
the trailing partial chunk (ceil division) and `PerGameStruct.load_block`
silently yields an instance decoded from it whenever all the variant's
fields happen to fit inside the partial chunk. -/
theorem C3_truncated_array_amended :
    (∀ (st : nsmbpy2.StructType) (data : List Nat),
      0 < st.raw_data_length → ¬ st.raw_data_length ∣ data.length →
      nsmbpy2.load_struct_array st data [] = none) ∧
    nsmbpy.PerGameStruct.load_block ⟨2, [], [⟨1, 0, none, []⟩]⟩
      .NEW_SUPER_MARIO_BROS [1, 2, 3] = some [[1], [3]] := by
  constructor
  · intro st data hL hdvd
    apply load_go_partial_none st data _ 0 hL
    · rw [Nat.sub_zero]
      intro h
      exact hdvd (Nat.dvd_iff_mod_eq_zero.mpr h)
    · omega
  · decide

/-- Witness for C3: a 3-byte buffer with 2-byte items fails in `nsmbpy2`,
while the `nsmbpy` engine silently yields a short second instance. -/
theorem C3_truncated_array_amended_witness :
    (0 : Nat) < 2 ∧ ¬ (2 : Nat) ∣ ([1, 2, 3] : List Nat).length ∧
    nsmbpy2.load_struct_array ⟨2, []⟩ [1, 2, 3] [] = none ∧
    nsmbpy.PerGameStruct.load_block ⟨2, [], [⟨1, 0, none, []⟩]⟩
      .NEW_SUPER_MARIO_BROS [1, 2, 3] = some [[1], [3]] :=
  ⟨by decide, by decide,
   C3_truncated_array_amended.1 ⟨2, []⟩ [1, 2, 3] (by decide) (by decide),
   C3_truncated_array_amended.2⟩

/-- Counterexample for C3 as stated: `PerGameStruct.load_block` on a 3-byte
buffer with a 2-byte item width succeeds, decoding the second instance from
the trailing 1-byte partial chunk — no `TruncatedArray` error. -/
theorem C3_counterexample :
    nsmbpy.PerGameStruct.load_block ⟨2, [], [⟨1, 0, none, []⟩]⟩
      .NEW_SUPER_MARIO_BROS [1, 2, 3] = some [[1], [3]] ∧
    (some [[1], [3]] : Option (List (List Nat))) ≠ none := by
  refine ⟨by decide, by decide⟩

/-- The item count of a struct array is bounded by its total byte length
(every item contributes at least one byte). -/
theorem length_le_flatten (items : List nsmbpy2.BaseStruct) (L : Nat) (hL : 0 < L)
    (h : ∀ i ∈ items, i.raw_data.length = L) :
    items.length ≤ ((items.map nsmbpy2.BaseStruct.toBytes).flatten).length := by
  induction items with
  | nil => simp
  | cons i rest ih =>
    simp only [List.map_cons, List.flatten_cons, List.length_append, List.length_cons]
    have h1 : (nsmbpy2.BaseStruct.toBytes i).length = L := h i (List.mem_cons_self i rest)
    have h2 := ih (fun j hj => h j (List.mem_cons_of_mem _ hj))
    omega

/-- The `load_struct_array` loop, run over a buffer that is exactly the
concatenation of well-formed items followed by the terminator, reconstructs
exactly those items. -/
theorem load_go_exact (st : nsmbpy2.StructType) (t : List Nat)
    (hL : 0 < st.raw_data_length) :
    ∀ (items : List nsmbpy2.BaseStruct) (fuel offset : Nat) (data : List Nat),
    data.drop offset = (items.map nsmbpy2.BaseStruct.toBytes).flatten ++ t →
    data.length - t.length
      = offset + ((items.map nsmbpy2.BaseStruct.toBytes).flatten).length →
    (∀ i ∈ items, i.fields = st.fields ∧ i.raw_data.length = st.raw_data_length ∧
      t.isPrefixOf i.raw_data = false) →
    items.length < fuel →
    nsmbpy2.load_struct_array_go st data t fuel offset = some items := by
  intro items
  induction items with
  | nil =>
    intro fuel offset data hdrop hlen _ hfuel
    match fuel, hfuel with
    | fuel + 1, _ =>
      rw [nsmbpy2.load_struct_array_go]
      rw [if_neg (by simp only [List.map_nil, List.flatten_nil, List.length_nil] at hlen; omega)]
  | cons i rest ih =>
    intro fuel offset data hdrop hlen hitems hfuel
    obtain ⟨hf, hlen_i, hpre⟩ := hitems i (List.mem_cons_self i rest)
    match fuel, hfuel with
    | fuel + 1, hfuel =>
      have hflat : ((i :: rest).map nsmbpy2.BaseStruct.toBytes).flatten
          = i.raw_data ++ ((rest.map nsmbpy2.BaseStruct.toBytes).flatten) := by
        simp [nsmbpy2.BaseStruct.toBytes]
      rw [hflat] at hdrop hlen
      rw [List.length_append] at hlen
      rw [nsmbpy2.load_struct_array_go]
      rw [if_pos (by omega)]
      have hchunk : (data.drop offset).take st.raw_data_length = i.raw_data := by
        rw [hdrop, List.append_assoc, ← hlen_i, List.take_left]
      rw [hchunk]
      rw [if_neg (by simp [hpre])]
      have hinit : st.init i.raw_data = some ⟨st.fields, i.raw_data⟩ := by
        unfold nsmbpy2.StructType.init
        rw [if_pos hlen_i]
      rw [hinit]
      have hdrop' : data.drop (offset + st.raw_data_length)
          = ((rest.map nsmbpy2.BaseStruct.toBytes).flatten) ++ t := by
        rw [← List.drop_drop, hdrop, List.append_assoc, ← hlen_i, List.drop_left]
      have hrec := ih fuel (offset + st.raw_data_length) data hdrop'
        (by omega)
        (fun j hj => hitems j (List.mem_cons_of_mem _ hj))
        (by simp at hfuel; omega)
      rw [hrec]
      have hmk : (⟨st.fields, i.raw_data⟩ : nsmbpy2.BaseStruct) = i := by
        cases i with
        | mk f r => simp only at hf; rw [hf]
      rw [hmk]
      rfl

/-- C8 (amended): for any non-empty terminator and any list of
same-descriptor instances none of whose byte content begins with the
terminator, saving the list as an array and loading it back returns a list
equal to the original:
`load_array(V, D, save_array(items, t), t) == items`.  (Without that
proviso the loader's `startswith(terminator)` check silently drops an item
that begins with the terminator bytes, and everything after it.) -/
theorem C8_array_framing_amended (st : nsmbpy2.StructType) (t : List Nat)
    (items : List nsmbpy2.BaseStruct)
    (hL : 0 < st.raw_data_length) (_ht : t ≠ [])
    (hitems : ∀ i ∈ items, i.fields = st.fields ∧
      i.raw_data.length = st.raw_data_length ∧ t.isPrefixOf i.raw_data = false) :
    nsmbpy2.load_struct_array st (nsmbpy2.save_struct_array items t) t
      = some items := by
  unfold nsmbpy2.load_struct_array nsmbpy2.save_struct_array
  apply load_go_exact st t hL items
  · rw [List.drop_zero]
  · rw [List.length_append]
    omega
  · exact hitems
  · have := length_le_flatten items st.raw_data_length hL
      (fun i hi => (hitems i hi).2.1)
    rw [List.length_append]
    omega

/-- Witness for C8: two 2-byte items and terminator `[0]` round-trip. -/
theorem C8_array_framing_amended_witness :
    (0 : Nat) < 2 ∧ ([0] : List Nat) ≠ [] ∧
    nsmbpy2.load_struct_array ⟨2, []⟩
      (nsmbpy2.save_struct_array [⟨[], [1, 2]⟩, ⟨[], [3, 4]⟩] [0]) [0]
      = some [⟨[], [1, 2]⟩, ⟨[], [3, 4]⟩] :=
  ⟨by decide, by decide,
   C8_array_framing_amended ⟨2, []⟩ [0] [⟨[], [1, 2]⟩, ⟨[], [3, 4]⟩]
     (by decide) (by decide) (by decide)⟩

/-- Counterexample for C8 as stated: a single item whose bytes begin with
the terminator is silently dropped: `load_array(save_array([I], t), t)`
returns `[]`, not `[I]`. -/
theorem C8_counterexample :
    nsmbpy2.save_struct_array [⟨[], [255, 255]⟩] [255] = [255, 255, 255] ∧
    nsmbpy2.load_struct_array ⟨2, []⟩ [255, 255, 255] [255] = some [] ∧
    (some [] : Option (List nsmbpy2.BaseStruct))
      ≠ some [⟨[], [255, 255]⟩] := by
  refine ⟨by decide, by decide, by decide⟩
